import Mathlib

/-!
Shallow embedding of the `wavey-ai/discovery` node-discovery crate.

The embedding covers the parts of the code the claims are about:

* `src/lib.rs` — the tagged registry `Nodes` (fields `own_ips`, `data`,
  the broadcast change channel `tx`), with `Nodes::new`, `Nodes::test`,
  `Nodes::add` and `Nodes::reap`.
* `src/vlan.rs` — the untagged registry `Nodes` (here `VlanNodes`), the
  per-datagram body of `receive_broadcasts`, `extract_private_ip`, and
  the `broadcast_ip` derivation inside `discover`.
* `src/dns.rs` — the per-tag enumeration loop of `perform_dns_checks`
  and the answer-section scan of `get_dns`.

Modelling conventions:
* `Ipv4Addr` is four numeric octets; `std::net::Ipv4Addr::is_private`
  and `is_loopback` are transcribed from the Rust standard library.
* `tokio::time::Instant` is a `Nat` of whole seconds; `Instant::now()`
  becomes an explicit `now` argument threaded to each operation, and
  `Duration::as_secs` of `now - last_seen` is natural subtraction
  (`Instant::duration_since` saturates at zero, as `Nat` subtraction
  does).
* `HashMap<Ipv4Addr, Node>` becomes a `List Node` keyed by the `ip`
  field (every insertion in the source stores the key as the `ip` of the node): `contains_key` is `List.any`, insertion of an absent key is an
  append, `retain` is `List.filter`, `entry(..).or_insert(..)` inserts
  only when absent.
* the lossy broadcast change channel is modelled by the list `events`
  of values ever passed to `tx.send`, in order; a `send` appends.
* OS interface enumeration (`get_if_addrs`) is out of scope: the list
  of interface-bound IPv4 addresses that `Nodes::new` would resolve is
  taken as an argument.
-/

namespace Discovery

/-- An IPv4 address as four octets, `oct0.oct1.oct2.oct3`. -/
structure Ipv4Addr where
  oct0 : Nat
  oct1 : Nat
  oct2 : Nat
  oct3 : Nat
deriving DecidableEq, Repr

/-- `std::net::Ipv4Addr::is_private`: RFC1918 — `10/8`, `172.16/12`,
`192.168/16`. -/
def Ipv4Addr.is_private (ip : Ipv4Addr) : Bool :=
  (ip.oct0 == 10)
    || (ip.oct0 == 172 && decide (16 ≤ ip.oct1) && decide (ip.oct1 ≤ 31))
    || (ip.oct0 == 192 && ip.oct1 == 168)

/-- `std::net::Ipv4Addr::is_loopback`: first octet 127. -/
def Ipv4Addr.is_loopback (ip : Ipv4Addr) : Bool :=
  ip.oct0 == 127

/-- `127.0.0.1`, the loopback address inserted into every ignore set. -/
def localhost : Ipv4Addr := ⟨127, 0, 0, 1⟩

/-- `MAX_SILENT_INTERVALS` from `src/lib.rs` / `src/vlan.rs`. -/
def MAX_SILENT_INTERVALS : Nat := 10

/-- `BROADCAST_INTERVAL.as_secs()` from `src/lib.rs` / `src/vlan.rs`. -/
def BROADCAST_INTERVAL_SECS : Nat := 5

/-- `Node` from `src/lib.rs`: ip, optional tag, optional seq, last-seen
instant. -/
structure Node where
  ip : Ipv4Addr
  tag : Option String
  seq : Option Nat
  last_seen : Nat
deriving DecidableEq, Repr

/-- `Nodes` from `src/lib.rs`: the self-ignore set `own_ips`, the map
`data` (as a list keyed by `Node.ip`), and the change channel modelled
by the ordered list of published events. -/
structure Nodes where
  own_ips : List Ipv4Addr
  data : List Node
  events : List Ipv4Addr
deriving DecidableEq, Repr

/-- `Nodes::new` from `src/lib.rs`, with the OS-resolved interface
addresses passed in (`get_if_addrs` is external): the ignore set is
those addresses plus `127.0.0.1`; map and channel start empty. -/
def Nodes.new (interface_ips : List Ipv4Addr) : Nodes :=
  { own_ips := interface_ips ++ [localhost], data := [], events := [] }

/-- `Nodes::test` from `src/lib.rs`: `contains_key` on the map. -/
def Nodes.test (s : Nodes) (ip : Ipv4Addr) : Bool :=
  s.data.any (fun n => n.ip == ip)

/-- `Nodes::add` from `src/lib.rs`: if `ip` is neither present nor in
`own_ips`, insert a fresh node with `last_seen = now`, send `ip` on the
change channel and return true; otherwise do nothing and return
false. -/
def Nodes.add (s : Nodes) (ip : Ipv4Addr) (tag : Option String)
    (seq : Option Nat) (now : Nat) : Nodes × Bool :=
  if !(s.data.any (fun n => n.ip == ip)) && !(s.own_ips.contains ip) then
    ({ s with
        data := s.data ++ [{ ip := ip, tag := tag, seq := seq, last_seen := now }],
        events := s.events ++ [ip] },
      true)
  else
    (s, false)

/-- `Nodes::reap` from `src/lib.rs`: retain exactly the nodes whose age
`now - last_seen` (in whole seconds) is at most
`MAX_SILENT_INTERVALS * BROADCAST_INTERVAL.as_secs()`. -/
def Nodes.reap (s : Nodes) (now : Nat) : Nodes :=
  { s with
      data := s.data.filter (fun n =>
        decide (now - n.last_seen ≤ MAX_SILENT_INTERVALS * BROADCAST_INTERVAL_SECS)) }

/-- One mutating registry call, for quantifying over operation
sequences: an `add` (with its clock value) or a `reap`. -/
inductive RegOp where
  | add (ip : Ipv4Addr) (tag : Option String) (seq : Option Nat) (now : Nat)
  | reap (now : Nat)
deriving DecidableEq, Repr

/-- Apply one registry operation. -/
def Nodes.runOp : Nodes → RegOp → Nodes
  | s, RegOp.add ip tag seq now => (Nodes.add s ip tag seq now).1
  | s, RegOp.reap now => Nodes.reap s now

/-- Apply a sequence of registry operations, oldest first. -/
def Nodes.runOps (s : Nodes) (ops : List RegOp) : Nodes :=
  ops.foldl Nodes.runOp s

/-- `Node` from `src/vlan.rs`: ip and last-seen instant only. -/
structure VlanNode where
  ip : Ipv4Addr
  last_seen : Nat
deriving DecidableEq, Repr

/-- `Nodes` from `src/vlan.rs`: only the map, no ignore set and no
change channel. -/
structure VlanNodes where
  data : List VlanNode
deriving DecidableEq, Repr

/-- `Nodes::new` from `src/vlan.rs`. -/
def VlanNodes.new : VlanNodes := { data := [] }

/-- `Nodes::test` from `src/vlan.rs`. -/
def VlanNodes.test (s : VlanNodes) (ip : Ipv4Addr) : Bool :=
  s.data.any (fun n => n.ip == ip)

/-- `Nodes::add` from `src/vlan.rs`:
`entry(ip).or_insert(Node { ip, last_seen: Instant::now() })` — insert
only when the key is absent; an existing entry is left untouched. -/
def VlanNodes.add (s : VlanNodes) (ip : Ipv4Addr) (now : Nat) : VlanNodes :=
  if s.data.any (fun n => n.ip == ip) then s
  else { data := s.data ++ [{ ip := ip, last_seen := now }] }

/-- `Nodes::reap` from `src/vlan.rs` (same body as in `src/lib.rs`). -/
def VlanNodes.reap (s : VlanNodes) (now : Nat) : VlanNodes :=
  { data := s.data.filter (fun n =>
      decide (now - n.last_seen ≤ MAX_SILENT_INTERVALS * BROADCAST_INTERVAL_SECS)) }

/-- `std::net::IpAddr`: a v4 address or a v6 one (v6 payload is
irrelevant here — `extract_private_ip` discards it). -/
inductive IpAddr where
  | v4 (ip : Ipv4Addr)
  | v6
deriving DecidableEq, Repr

/-- `extract_private_ip` from `src/vlan.rs`, on the IP of the source
socket address: a v4 address that is RFC1918-private with first octet
10, otherwise none. -/
def extract_private_ip (addr : IpAddr) : Option Ipv4Addr :=
  match addr with
  | IpAddr.v4 ipv4 =>
      if ipv4.is_private && ipv4.oct0 == 10 then some ipv4 else none
  | IpAddr.v6 => none

/-- The `Ok((_, src_addr))` branch of one `receive_broadcasts` loop
iteration from `src/vlan.rs`: extract a private 10/8 IPv4 from the
source address; if it differs from `own_ip`, `nodes.add` it; in every
other case leave the registry alone (the `Err` branch of `recv_from`
only logs, so it is the identity on the registry as well). -/
def receive_broadcast_step (own_ip : Ipv4Addr) (src : IpAddr)
    (s : VlanNodes) (now : Nat) : VlanNodes :=
  match extract_private_ip src with
  | some discovered_ip =>
      if discovered_ip ≠ own_ip then VlanNodes.add s discovered_ip now else s
  | none => s

/-- `Ipv4Addr::to_string`: the dotted-decimal rendering
`oct0.oct1.oct2.oct3`. -/
def ipv4ToString (ip : Ipv4Addr) : String :=
  toString ip.oct0 ++ "." ++ toString ip.oct1 ++ "." ++ toString ip.oct2
    ++ "." ++ toString ip.oct3

/-- `str::split('.')` over the characters of a string (each `'.'` is a
separator; no merging of empty pieces). -/
def splitDotAux : List Char → List Char → List String
  | [], acc => [String.mk acc.reverse]
  | c :: rest, acc =>
      if c = '.' then String.mk acc.reverse :: splitDotAux rest []
      else splitDotAux rest (c :: acc)

/-- `str::rsplit('.')`: the pieces of `split('.')` in reverse order. -/
def rsplitDot (s : String) : List String :=
  (splitDotAux s.data []).reverse

/-- The `broadcast_ip` derivation inside `discover` from
`src/vlan.rs`:
`format!("{}.255", own_ip.to_string().rsplit('.').nth(1).unwrap_or(""))`. -/
def broadcastIpOf (own_ip : Ipv4Addr) : String :=
  ((rsplitDot (ipv4ToString own_ip)).getD 1 "") ++ ".255"

/-- The outcome of one `get_dns` call in `src/dns.rs`, abstracted over
the network: `Ok(Some(ip))`, `Ok(None)` (no qualifying answer), or
`Err(_)` (send/timeout/parse failure). -/
inductive DnsResult where
  | ok (ip : Ipv4Addr)
  | gap
  | err
deriving DecidableEq, Repr

/-- The `while seq < 100` loop body of `perform_dns_checks` in
`src/dns.rs` for one tag, with the resolver abstracted as a function
from sequence number to `DnsResult`. The `fuel` argument encodes the
loop guard: it is `100 - seq`, so the guard `seq < 100` is `fuel > 0`.
Each iteration increments `seq`, queries it, and on `Ok(Some(ip))`
calls `nodes.add(ip, Some(tag), Some(seq), is_self)` (where the caller
computes `is_self = own_ips.contains(&ip)`, the same condition
`Nodes.add` tests internally) and continues; on `Ok(None)` or `Err` it
breaks. The second component returned is the list of sequence numbers
queried, in order. -/
def perform_tag_checks (resolver : Nat → DnsResult) (tag : String) (now : Nat) :
    Nat → Nat → Nodes → Nodes × List Nat
  | 0, _, s => (s, [])
  | fuel + 1, seq, s =>
      let seq1 := seq + 1
      match resolver seq1 with
      | DnsResult.ok ip =>
          let s1 := (Nodes.add s ip (some tag) (some seq1) now).1
          let rest := perform_tag_checks resolver tag now fuel seq1 s1
          (rest.1, seq1 :: rest.2)
      | DnsResult.gap => (s, [seq1])
      | DnsResult.err => (s, [seq1])

/-- The enumeration of one tag inside `perform_dns_checks` from
`src/dns.rs`: `seq` starts at 0, the loop runs while `seq < 100`. -/
def perform_dns_checks_tag (resolver : Nat → DnsResult) (tag : String)
    (now : Nat) (s : Nodes) : Nodes × List Nat :=
  perform_tag_checks resolver tag now 100 0 s

/-- A DNS answer-section record as `get_dns` in `src/dns.rs` sees it:
an A-record carrying an IPv4, or anything else. -/
inductive Resource where
  | A (ip : Ipv4Addr)
  | other
deriving DecidableEq, Repr

/-- The answer-scanning loop of `get_dns` in `src/dns.rs`: return
`Some(ip)` for the first `Resource::A(ip)` with `!ip.is_loopback()`;
if the loop falls through, `Ok(None)`. -/
def get_dns_scan : List Resource → Option Ipv4Addr
  | [] => none
  | Resource.A ip :: rest =>
      if ip.is_loopback then get_dns_scan rest else some ip
  | Resource.other :: rest => get_dns_scan rest

/-- Modelled from the spec, for comparison with `get_dns_scan`: a
record qualifies when it is an A-record whose IP is not an IPv4
loopback address. -/
def qualifyingAnswer : Resource → Option Ipv4Addr
  | Resource.A ip => if ip.is_loopback then none else some ip
  | Resource.other => none

/-- The registry invariant behind the self-ignore claim: no address of
the ignore set is present in the map. -/
def SelfClean (s : Nodes) : Prop :=
  ∀ ip ∈ s.own_ips, s.test ip = false

/-- A concrete tagged-registry state used to instantiate theorems: it
holds `10.0.0.7` with `tag = "uk"`, `seq = 1`, `last_seen = 0`, one
event already published. -/
def sampleTagged : Nodes :=
  { own_ips := [], data := [⟨⟨10, 0, 0, 7⟩, some "uk", some 1, 0⟩], events := [⟨10, 0, 0, 7⟩] }

/-- A concrete vlan-registry state used to instantiate theorems: it
holds `10.0.0.7` with `last_seen = 0`. -/
def sampleVlan : VlanNodes :=
  { data := [⟨⟨10, 0, 0, 7⟩, 0⟩] }

/-- A concrete resolver used to instantiate theorems: sequence numbers
1 and 2 answer with `10.0.0.seq`, sequence 3 is a gap. -/
def sampleResolver : Nat → DnsResult := fun j =>
  if j ≤ 2 then DnsResult.ok ⟨10, 0, 0, j⟩ else DnsResult.gap

/-- The per-query state transition applied by the enumeration loop: an
`Ok(Some(ip))` result calls `nodes.add` with the tag and the sequence
number, any other result leaves the registry alone. -/
def dnsQueryStep (resolver : Nat → DnsResult) (tag : String) (now : Nat)
    (st : Nodes) (j : Nat) : Nodes :=
  match resolver j with
  | DnsResult.ok ip => (Nodes.add st ip (some tag) (some j) now).1
  | DnsResult.gap => st
  | DnsResult.err => st

end Discovery

namespace Discovery

/-! ## Basic lemmas about the tagged registry (`src/lib.rs`) -/

theorem Nodes.test_eq_true_iff (s : Nodes) (ip : Ipv4Addr) :
    s.test ip = true ↔ ∃ n ∈ s.data, n.ip = ip := by
  simp [Nodes.test, List.any_eq_true]

theorem Nodes.add_of_present (s : Nodes) (ip : Ipv4Addr) (tag : Option String)
    (seq : Option Nat) (now : Nat) (h : s.test ip = true) :
    Nodes.add s ip tag seq now = (s, false) := by
  simp only [Nodes.test] at h
  simp [Nodes.add, h]

theorem Nodes.add_of_self (s : Nodes) (ip : Ipv4Addr) (tag : Option String)
    (seq : Option Nat) (now : Nat) (h : ip ∈ s.own_ips) :
    Nodes.add s ip tag seq now = (s, false) := by
  have hc : s.own_ips.contains ip = true := List.elem_iff.mpr h
  simp only [Nodes.add, hc]
  simp

theorem Nodes.add_of_new (s : Nodes) (ip : Ipv4Addr) (tag : Option String)
    (seq : Option Nat) (now : Nat) (h1 : s.test ip = false) (h2 : ip ∉ s.own_ips) :
    Nodes.add s ip tag seq now
      = ({ s with
            data := s.data ++ [{ ip := ip, tag := tag, seq := seq, last_seen := now }],
            events := s.events ++ [ip] },
          true) := by
  have hc : s.own_ips.contains ip = false := by
    rcases hcontra : s.own_ips.contains ip with _ | _
    · rfl
    · exact absurd (List.elem_iff.mp hcontra) h2
  simp only [Nodes.test] at h1
  simp only [Nodes.add, h1, hc]
  simp

theorem Nodes.test_add_same (s : Nodes) (ip : Ipv4Addr) (tag : Option String)
    (seq : Option Nat) (now : Nat) (h2 : ip ∉ s.own_ips) :
    (Nodes.add s ip tag seq now).1.test ip = true := by
  rcases h1 : s.test ip with _ | _
  · rw [Nodes.add_of_new s ip tag seq now h1 h2]
    simp [Nodes.test]
  · rw [Nodes.add_of_present s ip tag seq now h1]
    exact h1

theorem Nodes.runOp_own_ips (s : Nodes) (op : RegOp) :
    (s.runOp op).own_ips = s.own_ips := by
  cases op with
  | add ip tag seq now =>
      simp only [Nodes.runOp, Nodes.add]
      split
      · rfl
      · rfl
  | reap now => rfl

theorem selfClean_runOp (s : Nodes) (op : RegOp) (h : SelfClean s) :
    SelfClean (s.runOp op) := by
  cases op with
  | add ip tag seq now =>
      intro q hq
      rw [Nodes.runOp_own_ips] at hq
      by_cases hself : ip ∈ s.own_ips
      · simp only [Nodes.runOp, Nodes.add_of_self s ip tag seq now hself]
        exact h q hq
      · rcases hpres : s.test ip with _ | _
        · simp only [Nodes.runOp, Nodes.add_of_new s ip tag seq now hpres hself]
          have hq2 : s.test q = false := h q hq
          simp only [Nodes.test] at hq2 ⊢
          simp only [List.any_append, List.any_cons, List.any_nil, Bool.or_false,
            hq2, Bool.false_or]
          have hne : ip ≠ q := fun he => hself (he ▸ hq)
          simp [hne]
        · simp only [Nodes.runOp, Nodes.add_of_present s ip tag seq now hpres]
          exact h q hq
  | reap now =>
      intro q hq
      have hq2 : s.test q = false := h q hq
      simp only [Nodes.test] at hq2 ⊢
      simp only [Nodes.runOp, Nodes.reap]
      rcases hcontra : List.any (List.filter _ s.data) fun n => n.ip == q with _ | _
      · rfl
      · obtain ⟨n, hn, hbeq⟩ := List.any_eq_true.mp hcontra
        have hn2 : n ∈ s.data := (List.mem_filter.mp hn).1
        have : s.data.any (fun n => n.ip == q) = true :=
          List.any_eq_true.mpr ⟨n, hn2, hbeq⟩
        rw [hq2] at this
        exact this.symm

theorem selfClean_runOps (s : Nodes) (ops : List RegOp) (h : SelfClean s) :
    SelfClean (s.runOps ops) ∧ (s.runOps ops).own_ips = s.own_ips := by
  induction ops generalizing s with
  | nil => exact ⟨h, rfl⟩
  | cons op rest ih =>
      have h1 := selfClean_runOp s op h
      obtain ⟨h2, h3⟩ := ih (s.runOp op) h1
      refine ⟨?_, ?_⟩
      · simpa [Nodes.runOps] using h2
      · have : (s.runOps (op :: rest)).own_ips = (s.runOp op).own_ips := by
          simpa [Nodes.runOps] using h3
        rw [this, Nodes.runOp_own_ips]

/-! ## Claim theorems -/

/-- C3: starting from a freshly constructed registry, after any
sequence of operations no IP of the self-ignore set (interface
addresses plus `127.0.0.1`) is present: its membership test returns
false, and an `add` of it is a no-op returning false. -/
theorem C3_self_ignore_never_present (interface_ips : List Ipv4Addr)
    (ops : List RegOp) (ip : Ipv4Addr) (tag : Option String) (seq : Option Nat)
    (now : Nat) (h : ip ∈ (Nodes.new interface_ips).own_ips) :
    Nodes.test (Nodes.runOps (Nodes.new interface_ips) ops) ip = false
    ∧ Nodes.add (Nodes.runOps (Nodes.new interface_ips) ops) ip tag seq now
        = (Nodes.runOps (Nodes.new interface_ips) ops, false) := by
  have h0 : SelfClean (Nodes.new interface_ips) := by
    intro q hq
    rfl
  obtain ⟨hc, hown⟩ := selfClean_runOps (Nodes.new interface_ips) ops h0
  have hip : ip ∈ (Nodes.runOps (Nodes.new interface_ips) ops).own_ips := by
    rw [hown]
    exact h
  exact ⟨hc ip hip, Nodes.add_of_self _ ip tag seq now hip⟩

theorem C3_self_ignore_never_present_witness :
    (⟨10, 0, 0, 5⟩ : Ipv4Addr) ∈ (Nodes.new [⟨10, 0, 0, 5⟩]).own_ips
    ∧ (Nodes.test
          (Nodes.runOps (Nodes.new [⟨10, 0, 0, 5⟩])
            [RegOp.add ⟨10, 0, 0, 5⟩ (some "uk") (some 1) 1, RegOp.reap 2])
          ⟨10, 0, 0, 5⟩ = false
        ∧ Nodes.add
            (Nodes.runOps (Nodes.new [⟨10, 0, 0, 5⟩])
              [RegOp.add ⟨10, 0, 0, 5⟩ (some "uk") (some 1) 1, RegOp.reap 2])
            ⟨10, 0, 0, 5⟩ none none 3
          = (Nodes.runOps (Nodes.new [⟨10, 0, 0, 5⟩])
              [RegOp.add ⟨10, 0, 0, 5⟩ (some "uk") (some 1) 1, RegOp.reap 2], false)) :=
  ⟨by decide,
    C3_self_ignore_never_present [⟨10, 0, 0, 5⟩]
      [RegOp.add ⟨10, 0, 0, 5⟩ (some "uk") (some 1) 1, RegOp.reap 2]
      ⟨10, 0, 0, 5⟩ none none 3 (by decide)⟩

/-- C4: for an IP outside the self-ignore set, `add` returns true iff
the IP was absent; when it returns true it has inserted the IP and
published exactly one event for it on the change channel, and when it
returns false it has left the registry (channel included) unchanged. -/
theorem C4_add_insertion_and_publication (s : Nodes) (ip : Ipv4Addr)
    (tag : Option String) (seq : Option Nat) (now : Nat) (h : ip ∉ s.own_ips) :
    ((Nodes.add s ip tag seq now).2 = true ↔ s.test ip = false)
    ∧ ((Nodes.add s ip tag seq now).2 = true →
        (Nodes.add s ip tag seq now).1.test ip = true
        ∧ (Nodes.add s ip tag seq now).1.events = s.events ++ [ip])
    ∧ ((Nodes.add s ip tag seq now).2 = false →
        Nodes.add s ip tag seq now = (s, false)) := by
  rcases hpres : s.test ip with _ | _
  · rw [Nodes.add_of_new s ip tag seq now hpres h]
    refine ⟨by simp, fun _ => ⟨?_, rfl⟩, fun hcontra => by simp at hcontra⟩
    simp [Nodes.test]
  · rw [Nodes.add_of_present s ip tag seq now hpres]
    exact ⟨by simp, fun hcontra => by simp at hcontra, fun _ => rfl⟩

theorem C4_add_insertion_and_publication_witness :
    (⟨10, 0, 0, 7⟩ : Ipv4Addr) ∉ (Nodes.new []).own_ips
    ∧ (((Nodes.add (Nodes.new []) ⟨10, 0, 0, 7⟩ none none 1).2 = true
          ↔ (Nodes.new []).test ⟨10, 0, 0, 7⟩ = false)
        ∧ ((Nodes.add (Nodes.new []) ⟨10, 0, 0, 7⟩ none none 1).2 = true →
            (Nodes.add (Nodes.new []) ⟨10, 0, 0, 7⟩ none none 1).1.test ⟨10, 0, 0, 7⟩ = true
            ∧ (Nodes.add (Nodes.new []) ⟨10, 0, 0, 7⟩ none none 1).1.events
                = (Nodes.new []).events ++ [⟨10, 0, 0, 7⟩])
        ∧ ((Nodes.add (Nodes.new []) ⟨10, 0, 0, 7⟩ none none 1).2 = false →
            Nodes.add (Nodes.new []) ⟨10, 0, 0, 7⟩ none none 1 = (Nodes.new [], false))) :=
  ⟨by decide, C4_add_insertion_and_publication (Nodes.new []) ⟨10, 0, 0, 7⟩ none none 1 (by decide)⟩

/-- C9: for an IP outside the self-ignore set (`is_self = false`),
`add` followed immediately by `test` of the same IP returns true,
whatever the prior registry state. -/
theorem C9_add_then_test (s : Nodes) (ip : Ipv4Addr) (tag : Option String)
    (seq : Option Nat) (now : Nat) (h : ip ∉ s.own_ips) :
    (Nodes.add s ip tag seq now).1.test ip = true :=
  Nodes.test_add_same s ip tag seq now h

theorem C9_add_then_test_witness :
    (⟨10, 0, 0, 9⟩ : Ipv4Addr) ∉ (Nodes.new []).own_ips
    ∧ (Nodes.add (Nodes.new []) ⟨10, 0, 0, 9⟩ (some "uk") (some 2) 4).1.test ⟨10, 0, 0, 9⟩
        = true :=
  ⟨by decide, C9_add_then_test (Nodes.new []) ⟨10, 0, 0, 9⟩ (some "uk") (some 2) 4 (by decide)⟩

/-- C10: an `add` for an IP already present leaves the whole registry
state — the stored record, every other record, and the change channel —
unchanged and returns false; the same holds for the vlan registry and its
`add`. -/
theorem C10_add_present_is_noop (s : Nodes) (vs : VlanNodes) (ip : Ipv4Addr)
    (tag : Option String) (seq : Option Nat) (now : Nat) :
    (s.test ip = true → Nodes.add s ip tag seq now = (s, false))
    ∧ (vs.test ip = true → VlanNodes.add vs ip now = vs) := by
  refine ⟨fun h => Nodes.add_of_present s ip tag seq now h, fun h => ?_⟩
  simp only [VlanNodes.test] at h
  simp [VlanNodes.add, h]

theorem C10_add_present_is_noop_witness :
    (sampleTagged.test ⟨10, 0, 0, 7⟩ = true →
      Nodes.add sampleTagged ⟨10, 0, 0, 7⟩ (some "fr") (some 2) 3 = (sampleTagged, false))
    ∧ (sampleVlan.test ⟨10, 0, 0, 7⟩ = true →
        VlanNodes.add sampleVlan ⟨10, 0, 0, 7⟩ 3 = sampleVlan) :=
  C10_add_present_is_noop sampleTagged sampleVlan ⟨10, 0, 0, 7⟩ (some "fr") (some 2) 3

/-- C1 is refuted on the code: re-adding a present IP does NOT
overwrite `tag`, `seq`, `last_seen` — both registries leave the stored
record untouched. Here the tagged registry holds `10.0.0.7` with
`tag = "uk"`, `seq = 1`, `last_seen = 0`; an `add` at `now = 3` with
`tag = "fr"`, `seq = 2` changes nothing, and likewise the vlan
registry `or_insert` keeps `last_seen = 0` when re-adding at
`now = 3` — contradicting the comments in the source itself, which say the
re-add is done "to refresh last_seen". -/
theorem C1_readd_does_not_refresh :
    Nodes.add sampleTagged ⟨10, 0, 0, 7⟩ (some "fr") (some 2) 3 = (sampleTagged, false)
    ∧ VlanNodes.add sampleVlan ⟨10, 0, 0, 7⟩ 3 = sampleVlan := by
  decide

/-- C2 is refuted on the code: `broadcast_ip` is built from
`rsplit('.').nth(1)`, which is the THIRD octet of `own_ip`, not the
first three octets. For `own_ip = 10.0.0.5` the code produces
`"0.255"`, not the directed-broadcast address `"10.0.0.255"` the spec
derives. -/
theorem C2_broadcast_target_third_octet :
    broadcastIpOf ⟨10, 0, 0, 5⟩ = "0.255"
    ∧ broadcastIpOf ⟨10, 0, 0, 5⟩ ≠ "10.0.0.255" := by
  decide

/-- C6: `reap` keeps exactly the records whose age `now - last_seen`
is at most `MAX_SILENT_INTERVALS * BROADCAST_INTERVAL` seconds (so it
removes exactly those whose age exceeds it), keeps the surviving
records untouched and in place (the filtered map is a sublist),
publishes nothing on the change channel, and is idempotent at a fixed
clock. -/
theorem C6_reap_evicts_exactly_the_silent (s : Nodes) (now : Nat) :
    (∀ n : Node, n ∈ (Nodes.reap s now).data ↔
        (n ∈ s.data ∧ now - n.last_seen ≤ MAX_SILENT_INTERVALS * BROADCAST_INTERVAL_SECS))
    ∧ (Nodes.reap s now).data.Sublist s.data
    ∧ (Nodes.reap s now).events = s.events
    ∧ (Nodes.reap s now).own_ips = s.own_ips
    ∧ Nodes.reap (Nodes.reap s now) now = Nodes.reap s now := by
  refine ⟨fun n => ?_, ?_, rfl, rfl, ?_⟩
  · simp [Nodes.reap, List.mem_filter]
  · exact List.filter_sublist s.data
  · simp only [Nodes.reap]
    congr 1
    rw [List.filter_filter]
    simp only [Bool.and_self]

theorem C6_reap_evicts_exactly_the_silent_witness :
    ((⟨⟨10, 0, 0, 7⟩, some "uk", some 1, 0⟩ : Node) ∈ (Nodes.reap sampleTagged 51).data ↔
        ((⟨⟨10, 0, 0, 7⟩, some "uk", some 1, 0⟩ : Node) ∈ sampleTagged.data
          ∧ 51 - 0 ≤ MAX_SILENT_INTERVALS * BROADCAST_INTERVAL_SECS))
    ∧ Nodes.reap (Nodes.reap sampleTagged 51) 51 = Nodes.reap sampleTagged 51 :=
  ⟨(C6_reap_evicts_exactly_the_silent sampleTagged 51).1 ⟨⟨10, 0, 0, 7⟩, some "uk", some 1, 0⟩,
    (C6_reap_evicts_exactly_the_silent sampleTagged 51).2.2.2.2⟩

/-! ## Lemmas about the vlan registry and the LAN receiver -/

theorem VlanNodes.test_add_iff (s : VlanNodes) (ip q : Ipv4Addr) (now : Nat) :
    ((VlanNodes.add s ip now).test q = true) ↔ (s.test q = true ∨ ip = q) := by
  simp only [VlanNodes.add]
  split
  · rename_i h
    constructor
    · exact Or.inl
    · rintro (hq | rfl)
      · exact hq
      · exact h
  · simp [VlanNodes.test, List.any_append, List.any_cons]

/-- C7: a datagram source is recorded by the LAN receiver iff it is an
IPv4 address that is RFC1918-private, lies in 10/8, and differs from
the own IP of the host; for every other source the registry is left
unchanged. -/
theorem C7_receive_records_iff (own_ip : Ipv4Addr) (src : IpAddr)
    (s : VlanNodes) (now : Nat) :
    (∀ q : Ipv4Addr,
        ((receive_broadcast_step own_ip src s now).test q = true ↔
          (s.test q = true
            ∨ (src = IpAddr.v4 q ∧ q.is_private = true ∧ q.oct0 = 10 ∧ q ≠ own_ip))))
    ∧ ((∀ q : Ipv4Addr,
          ¬(src = IpAddr.v4 q ∧ q.is_private = true ∧ q.oct0 = 10 ∧ q ≠ own_ip)) →
        receive_broadcast_step own_ip src s now = s) := by
  cases src with
  | v6 =>
      refine ⟨fun q => ?_, fun _ => rfl⟩
      simp [receive_broadcast_step, extract_private_ip]
  | v4 ip =>
      by_cases hcond : ip.is_private = true ∧ ip.oct0 = 10
      · have hextract : extract_private_ip (IpAddr.v4 ip) = some ip := by
          simp [extract_private_ip, hcond.1, hcond.2]
        by_cases hown : ip = own_ip
        · have hstep : receive_broadcast_step own_ip (IpAddr.v4 ip) s now = s := by
            simp only [receive_broadcast_step, hextract]
            simp [hown]
          refine ⟨fun q => ?_, fun _ => hstep⟩
          rw [hstep]
          constructor
          · exact Or.inl
          · rintro (hq | ⟨hv, _, _, hne⟩)
            · exact hq
            · cases hv
              exact absurd hown hne
        · have hstep : receive_broadcast_step own_ip (IpAddr.v4 ip) s now
              = VlanNodes.add s ip now := by
            simp only [receive_broadcast_step, hextract]
            simp [hown]
          refine ⟨fun q => ?_, fun hall => ?_⟩
          · rw [hstep, VlanNodes.test_add_iff]
            constructor
            · rintro (hq | rfl)
              · exact Or.inl hq
              · exact Or.inr ⟨rfl, hcond.1, hcond.2, hown⟩
            · rintro (hq | ⟨hv, _, _, _⟩)
              · exact Or.inl hq
              · cases hv
                exact Or.inr rfl
          · exact absurd ⟨rfl, hcond.1, hcond.2, hown⟩ (hall ip)
      · have hextract : extract_private_ip (IpAddr.v4 ip) = none := by
          simp only [extract_private_ip]
          rcases hp : ip.is_private with _ | _
          · simp
          · rcases ho : ip.oct0 == 10 with _ | _
            · simp
            · exact absurd ⟨hp, by simpa using ho⟩ hcond
        have hstep : receive_broadcast_step own_ip (IpAddr.v4 ip) s now = s := by
          simp [receive_broadcast_step, hextract]
        refine ⟨fun q => ?_, fun _ => hstep⟩
        rw [hstep]
        constructor
        · exact Or.inl
        · rintro (hq | ⟨hv, hpr, ho, _⟩)
          · exact hq
          · cases hv
            exact absurd ⟨hpr, ho⟩ hcond

theorem C7_receive_records_iff_witness :
    (((receive_broadcast_step ⟨10, 0, 0, 5⟩ (IpAddr.v4 ⟨192, 168, 1, 5⟩) VlanNodes.new 7).test
          ⟨192, 168, 1, 5⟩ = true ↔
        (VlanNodes.new.test ⟨192, 168, 1, 5⟩ = true
          ∨ (IpAddr.v4 ⟨192, 168, 1, 5⟩ = IpAddr.v4 ⟨192, 168, 1, 5⟩
              ∧ Ipv4Addr.is_private ⟨192, 168, 1, 5⟩ = true
              ∧ Ipv4Addr.oct0 ⟨192, 168, 1, 5⟩ = 10
              ∧ (⟨192, 168, 1, 5⟩ : Ipv4Addr) ≠ ⟨10, 0, 0, 5⟩)))) :=
  (C7_receive_records_iff ⟨10, 0, 0, 5⟩ (IpAddr.v4 ⟨192, 168, 1, 5⟩) VlanNodes.new 7).1
    ⟨192, 168, 1, 5⟩

/-! ## The DNS answer scan -/

/-- C8: the `get_dns` answer scan returns exactly the first qualifying
answer — the first A-record whose IP is not loopback — and returns
none precisely when no answer qualifies (empty answer section, or only
loopback A-records and non-A records). -/
theorem C8_get_dns_first_qualifying (answers : List Resource) :
    get_dns_scan answers = (answers.filterMap qualifyingAnswer).head?
    ∧ (get_dns_scan answers = none ↔ ∀ r ∈ answers, qualifyingAnswer r = none) := by
  have h1 : ∀ l : List Resource, get_dns_scan l = (l.filterMap qualifyingAnswer).head? := by
    intro l
    induction l with
    | nil => rfl
    | cons r rest ih =>
        cases r with
        | A ip =>
            rcases hl : ip.is_loopback with _ | _
            · simp [get_dns_scan, qualifyingAnswer, hl, List.filterMap_cons]
            · simp [get_dns_scan, qualifyingAnswer, hl, List.filterMap_cons, ih]
        | other => simp [get_dns_scan, qualifyingAnswer, List.filterMap_cons, ih]
  refine ⟨h1 answers, ?_⟩
  rw [h1 answers]
  rw [List.head?_eq_none_iff]
  exact List.filterMap_eq_nil_iff

theorem C8_get_dns_first_qualifying_witness :
    get_dns_scan [Resource.other, Resource.A ⟨127, 0, 0, 1⟩, Resource.A ⟨10, 0, 0, 3⟩]
        = ([Resource.other, Resource.A ⟨127, 0, 0, 1⟩,
            Resource.A ⟨10, 0, 0, 3⟩].filterMap qualifyingAnswer).head?
    ∧ (get_dns_scan [Resource.other, Resource.A ⟨127, 0, 0, 1⟩, Resource.A ⟨10, 0, 0, 3⟩]
          = none ↔
        ∀ r ∈ [Resource.other, Resource.A ⟨127, 0, 0, 1⟩, Resource.A ⟨10, 0, 0, 3⟩],
          qualifyingAnswer r = none) :=
  C8_get_dns_first_qualifying [Resource.other, Resource.A ⟨127, 0, 0, 1⟩, Resource.A ⟨10, 0, 0, 3⟩]

/-! ## The per-tag DNS enumeration loop -/

theorem perform_tag_checks_spec (resolver : Nat → DnsResult) (tag : String) (now : Nat) :
    ∀ (fuel seq : Nat) (s : Nodes),
      (∀ j : Nat, j ∈ (perform_tag_checks resolver tag now fuel seq s).2 ↔
          (seq + 1 ≤ j ∧ j ≤ seq + fuel
            ∧ ∀ i : Nat, seq + 1 ≤ i → i < j → ∃ ip, resolver i = DnsResult.ok ip))
      ∧ (perform_tag_checks resolver tag now fuel seq s).1
          = (perform_tag_checks resolver tag now fuel seq s).2.foldl
              (dnsQueryStep resolver tag now) s := by
  intro fuel
  induction fuel with
  | zero =>
      intro seq s
      refine ⟨fun j => ?_, rfl⟩
      simp only [perform_tag_checks]
      constructor
      · intro h
        simp at h
      · rintro ⟨h1, h2, _⟩
        omega
  | succ fuel ih =>
      intro seq s
      rcases hres : resolver (seq + 1) with ip | _ | _
      · have hunfold : perform_tag_checks resolver tag now (fuel + 1) seq s
            = ((perform_tag_checks resolver tag now fuel (seq + 1)
                  (Nodes.add s ip (some tag) (some (seq + 1)) now).1).1,
                (seq + 1) ::
                  (perform_tag_checks resolver tag now fuel (seq + 1)
                    (Nodes.add s ip (some tag) (some (seq + 1)) now).1).2) := by
          simp only [perform_tag_checks, hres]
        obtain ⟨ihmem, ihst⟩ :=
          ih (seq + 1) (Nodes.add s ip (some tag) (some (seq + 1)) now).1
        refine ⟨fun j => ?_, ?_⟩
        · rw [hunfold]
          simp only [List.mem_cons]
          rw [ihmem j]
          constructor
          · rintro (rfl | ⟨hb1, hb2, hall⟩)
            · exact ⟨Nat.le_refl _, by omega, fun i hi1 hi2 => absurd hi2 (by omega)⟩
            · refine ⟨by omega, by omega, fun i hi1 hi2 => ?_⟩
              by_cases hcase : i = seq + 1
              · exact ⟨ip, hcase ▸ hres⟩
              · exact hall i (by omega) hi2
          · rintro ⟨hb1, hb2, hall⟩
            by_cases hcase : j = seq + 1
            · exact Or.inl hcase
            · exact Or.inr ⟨by omega, by omega, fun i hi1 hi2 => hall i (by omega) hi2⟩
        · rw [hunfold]
          simp only [List.foldl_cons]
          have hstep : dnsQueryStep resolver tag now s (seq + 1)
              = (Nodes.add s ip (some tag) (some (seq + 1)) now).1 := by
            simp [dnsQueryStep, hres]
          rw [hstep]
          exact ihst
      · have hunfold : perform_tag_checks resolver tag now (fuel + 1) seq s
            = (s, [seq + 1]) := by
          simp only [perform_tag_checks, hres]
        refine ⟨fun j => ?_, ?_⟩
        · rw [hunfold]
          simp only [List.mem_singleton]
          constructor
          · rintro rfl
            exact ⟨Nat.le_refl _, by omega, fun i hi1 hi2 => absurd hi2 (by omega)⟩
          · rintro ⟨hb1, hb2, hall⟩
            by_cases hcase : j = seq + 1
            · exact hcase
            · obtain ⟨ip, hip⟩ := hall (seq + 1) (Nat.le_refl _) (by omega)
              rw [hres] at hip
              simp at hip
        · rw [hunfold]
          simp only [List.foldl_cons, List.foldl_nil]
          simp [dnsQueryStep, hres]
      · have hunfold : perform_tag_checks resolver tag now (fuel + 1) seq s
            = (s, [seq + 1]) := by
          simp only [perform_tag_checks, hres]
        refine ⟨fun j => ?_, ?_⟩
        · rw [hunfold]
          simp only [List.mem_singleton]
          constructor
          · rintro rfl
            exact ⟨Nat.le_refl _, by omega, fun i hi1 hi2 => absurd hi2 (by omega)⟩
          · rintro ⟨hb1, hb2, hall⟩
            by_cases hcase : j = seq + 1
            · exact hcase
            · obtain ⟨ip, hip⟩ := hall (seq + 1) (Nat.le_refl _) (by omega)
              rw [hres] at hip
              simp at hip
        · rw [hunfold]
          simp only [List.foldl_cons, List.foldl_nil]
          simp [dnsQueryStep, hres]

/-- C5: the enumeration of one tag queries exactly the consecutive sequence
numbers from 1 up to the first one whose query returns no qualifying
answer or an error (a sequence number is queried iff it is in `1..100`
and every earlier sequence number from 1 on resolved to an answer),
and the resulting registry state is the fold of one `add(ip, tag,
seq)` call per answered query over the queried numbers in order. -/
theorem C5_dns_tag_enumeration (resolver : Nat → DnsResult) (tag : String)
    (now : Nat) (s : Nodes) :
    (∀ j : Nat, j ∈ (perform_dns_checks_tag resolver tag now s).2 ↔
        (1 ≤ j ∧ j ≤ 100
          ∧ ∀ i : Nat, 1 ≤ i → i < j → ∃ ip, resolver i = DnsResult.ok ip))
    ∧ (perform_dns_checks_tag resolver tag now s).1
        = (perform_dns_checks_tag resolver tag now s).2.foldl
            (dnsQueryStep resolver tag now) s := by
  have h := perform_tag_checks_spec resolver tag now 100 0 s
  simpa [perform_dns_checks_tag] using h

theorem C5_dns_tag_enumeration_witness :
    (perform_dns_checks_tag sampleResolver "uk" 0 (Nodes.new [])).2 = [1, 2, 3]
    ∧ (3 ∈ (perform_dns_checks_tag sampleResolver "uk" 0 (Nodes.new [])).2 ↔
        (1 ≤ 3 ∧ 3 ≤ 100
          ∧ ∀ i : Nat, 1 ≤ i → i < 3 → ∃ ip, sampleResolver i = DnsResult.ok ip)) :=
  ⟨by decide, (C5_dns_tag_enumeration sampleResolver "uk" 0 (Nodes.new [])).1 3⟩

end Discovery
